import Mathlib

/-!
Verification development for the `cropfish` repository
(`cropfish/cropfish.py`).

The program has four parts, embedded below over exact arithmetic:

* `scale_corners` — pure arithmetic on two 2-d coordinates, embedded
  componentwise over `ℚ × ℚ` (the Python floats carry exact values through
  this algebra in the properties of interest).
* `crop_image` — NumPy basic slicing `image[min_y:max_y, min_x:max_x]` with
  `int()`-truncated bounds; images are embedded as `List (List α)` (rows of
  pixels) and the slice endpoint resolution follows CPython exactly.
* `find_corners` — the loop over the fixed thresholds `(160, 192)`; the
  external OpenCV routines (`cv2.resize`, `cv2.cvtColor`,
  `cv2.findChessboardCorners`) are uninterpreted parameters gathered in the
  structure `CV`, while the binarization `(gray < t).astype(np.uint8) * 255`
  and the control flow are embedded concretely.
* `cropfish_cli` — the orchestrator; its file writes are reified as the list
  of `(filename, content)` pairs it performs.  Module loading itself is
  modelled by a small semantics of top-level Python statements
  (`PyStmt` / `runModule`) because the decorator on `cropfish_cli` references
  the never-imported name `click`.
-/

/-- Python `int()` applied to an exact rational value: truncation toward
zero.  `Rat.floor` is used directly (rather than the `FloorRing` notation)
so that the definition evaluates by kernel reduction. -/
def intTrunc (q : ℚ) : ℤ := if q < 0 then -(Rat.floor (-q)) else Rat.floor q

theorem ratFloor_eq_floor (q : ℚ) : Rat.floor q = ⌊q⌋ := by
  rw [Rat.floor_def', ← Rat.floor_def]

theorem intTrunc_eq (q : ℚ) : intTrunc q = if q < 0 then ⌈q⌉ else ⌊q⌋ := by
  unfold intTrunc
  rw [ratFloor_eq_floor, ratFloor_eq_floor]
  rcases lt_or_le q 0 with h | h
  · rw [if_pos h, if_pos h, Int.floor_neg, neg_neg]
  · rw [if_neg (not_lt.mpr h), if_neg (not_lt.mpr h)]

theorem intTrunc_mono {a b : ℚ} (h : a ≤ b) : intTrunc a ≤ intTrunc b := by
  rw [intTrunc_eq, intTrunc_eq]
  rcases lt_or_le a 0 with ha | ha <;> rcases lt_or_le b 0 with hb | hb
  · rw [if_pos ha, if_pos hb]; exact Int.ceil_mono h
  · rw [if_pos ha, if_neg (not_lt.mpr hb)]
    exact le_trans (Int.ceil_le.mpr (by exact_mod_cast ha.le)) (Int.floor_nonneg.mpr hb)
  · exact absurd (lt_of_le_of_lt h hb) (not_lt.mpr ha)
  · rw [if_neg (not_lt.mpr ha), if_neg (not_lt.mpr hb)]; exact Int.floor_mono h

/-- Resolution of one slice endpoint `i` on an axis of length `n`, exactly as
CPython and NumPy basic slicing resolve it (`PySlice_AdjustIndices`, step 1):
a negative endpoint counts from the far end of the axis (`n + i`, floored at
`0`); a nonnegative endpoint is capped at `n`. -/
def sliceIdx (n : ℕ) (i : ℤ) : ℕ := if i < 0 then ((n : ℤ) + i).toNat else min i.toNat n

/-- One axis of NumPy basic slicing: `l[a:b]` with step 1. -/
def pySlice {α : Type} (l : List α) (a b : ℤ) : List α :=
  (l.drop (sliceIdx l.length a)).take (sliceIdx l.length b - sliceIdx l.length a)

/-- Embedding of `crop_image(image, coord1, coord2)`: the Python source
computes `min_x, max_x = int(min(coord1[0], coord2[0])), int(max(coord1[0],
coord2[0]))`, likewise for `y`, and returns
`image[min_y:max_y, min_x:max_x]`. -/
def crop_image {α : Type} (image : List (List α)) (coord1 coord2 : ℚ × ℚ) : List (List α) :=
  let min_x : ℤ := intTrunc (min coord1.1 coord2.1)
  let max_x : ℤ := intTrunc (max coord1.1 coord2.1)
  let min_y : ℤ := intTrunc (min coord1.2 coord2.2)
  let max_y : ℤ := intTrunc (max coord1.2 coord2.2)
  (pySlice image min_y max_y).map (fun row => pySlice row min_x max_x)

/-- Resolution of a slice endpoint as claim C1 describes it: every
out-of-range endpoint — a negative one included — is truncated to the
nearer image edge. -/
def clampIdx (n : ℕ) (i : ℤ) : ℕ := if i < 0 then 0 else min i.toNat n

/-- Slicing under the endpoint resolution claimed by C1. -/
def clampSlice {α : Type} (l : List α) (a b : ℤ) : List α :=
  (l.drop (clampIdx l.length a)).take (clampIdx l.length b - clampIdx l.length a)

/-- Modelled from the words of claim C1 (refinement target, not from the
source): `crop_image` with every out-of-range bound — negative bounds
included — truncated to the image edge. -/
def crop_image_claimed {α : Type} (image : List (List α)) (coord1 coord2 : ℚ × ℚ) :
    List (List α) :=
  let min_x : ℤ := intTrunc (min coord1.1 coord2.1)
  let max_x : ℤ := intTrunc (max coord1.1 coord2.1)
  let min_y : ℤ := intTrunc (min coord1.2 coord2.2)
  let max_y : ℤ := intTrunc (max coord1.2 coord2.2)
  (clampSlice image min_y max_y).map (fun row => clampSlice row min_x max_x)

/-- Embedding of `scale_corners(coord1, coord2)`, componentwise over
`ℚ × ℚ`: `center = (coord1 + coord2) / 2`, `scaling_factor = 8 / 6`, and each
corner is mapped to `center + (corner - center) * scaling_factor`. -/
def scale_corners (coord1 coord2 : ℚ × ℚ) : (ℚ × ℚ) × (ℚ × ℚ) :=
  let center : ℚ × ℚ := ((coord1.1 + coord2.1) / 2, (coord1.2 + coord2.2) / 2)
  let scaling_factor : ℚ := 8 / 6
  let scaled_coord1 : ℚ × ℚ :=
    (center.1 + (coord1.1 - center.1) * scaling_factor,
     center.2 + (coord1.2 - center.2) * scaling_factor)
  let scaled_coord2 : ℚ × ℚ :=
    (center.1 + (coord2.1 - center.1) * scaling_factor,
     center.2 + (coord2.2 - center.2) * scaling_factor)
  (scaled_coord1, scaled_coord2)

/-- Squared Euclidean distance between two points of `ℚ × ℚ` (squares avoid
the irrational square root while carrying the same scaling information). -/
def distSq (a b : ℚ × ℚ) : ℚ := (a.1 - b.1) ^ 2 + (a.2 - b.2) ^ 2

/-- Embedding of `binary = (gray < threshold_value).astype(np.uint8) * 255`:
every pixel strictly below the threshold becomes 255 (foreground, white),
every other pixel becomes 0 (background, black). -/
def binarize (gray : List (List ℕ)) (threshold_value : ℕ) : List (List ℕ) :=
  gray.map (fun row => row.map (fun p => if p < threshold_value then 255 else 0))

/-- Uninterpreted OpenCV primitives used by `find_corners`: `cv2.resize`,
`cv2.cvtColor(·, COLOR_BGR2GRAY)` and `cv2.findChessboardCorners` (the last
takes the pattern size and returns the detected corner list on success,
mirroring the `(ret, corners)` pair of the source). -/
structure CV (α : Type) where
  resize : List (List α) → ℚ → List (List α)
  cvtColor : List (List α) → List (List ℕ)
  findChessboardCorners : ℕ × ℕ → List (List ℕ) → Option (List (ℚ × ℚ))

/-- Embedding of the `for threshold_value in (160, 192)` loop of
`find_corners`, instrumented with the list of thresholds whose detection the
loop actually runs: the first successful detection returns immediately,
so later thresholds are never attempted. -/
def tryThresholds (detect : List (List ℕ) → Option (List (ℚ × ℚ)))
    (gray : List (List ℕ)) : List ℕ → Option (List (ℚ × ℚ)) × List ℕ
  | [] => (none, [])
  | t :: ts =>
    match detect (binarize gray t) with
    | some corners => (some corners, [t])
    | none =>
      let rest := tryThresholds detect gray ts
      (rest.1, t :: rest.2)

/-- Grayscale of the resized image, as `find_corners` computes it:
`cv2.cvtColor(cv2.resize(image, fx=f, fy=f), COLOR_BGR2GRAY)`. -/
def grayOf {α : Type} (cv : CV α) (image : List (List α)) (resize_factor : ℚ) :
    List (List ℕ) :=
  cv.cvtColor (cv.resize image resize_factor)

/-- Embedding of `find_corners(image, resize_factor)`: resize, convert to
grayscale, loop over the thresholds `(160, 192)`; on the first successful
detection multiply every corner by `1 / resize_factor` and return the first
and the last corner (`corners[0][0]`, `corners[-1][0]`); otherwise return
`(None, None)`. -/
def find_corners {α : Type} (cv : CV α) (image : List (List α)) (resize_factor : ℚ) :
    Option (ℚ × ℚ) × Option (ℚ × ℚ) :=
  let gray := grayOf cv image resize_factor
  match (tryThresholds (cv.findChessboardCorners (7, 7)) gray [160, 192]).1 with
  | some corners =>
    let scaled := corners.map (fun c => (c.1 * (1 / resize_factor), c.2 * (1 / resize_factor)))
    (scaled.head?, scaled.getLast?)
  | none => (none, none)

/-- Thresholds whose detection `find_corners` actually runs on a given
input (the trace component of `tryThresholds`). -/
def triedThresholds {α : Type} (cv : CV α) (image : List (List α)) (resize_factor : ℚ) :
    List ℕ :=
  (tryThresholds (cv.findChessboardCorners (7, 7)) (grayOf cv image resize_factor) [160, 192]).2

/-- Embedding of the body of `cropfish_cli` on an already-loaded image,
reified as the list of `(filename, content)` file writes it performs:
with `resize_factor = 0.5`, if both corners are found, scale them, crop the
full-resolution image and write the result to `output.png`; otherwise write
nothing. -/
def cropfish_cli {α : Type} (cv : CV α) (image : List (List α)) :
    List (String × List (List α)) :=
  let resize_factor : ℚ := 1 / 2
  match find_corners cv image resize_factor with
  | (some coord1, some coord2) =>
    let scaled := scale_corners coord1 coord2
    [("output.png", crop_image image scaled.1 scaled.2)]
  | _ => []

/-- Top-level Python statements of the module, for the load-time semantics:
an import binding a list of names, a plain `def`, a decorated `def` whose
decorator expressions reference a list of base names (in evaluation order),
and the guarded call `if __name__ == "__main__":`. -/
inductive PyStmt where
  | importNames (binds : List String)
  | defFun (name : String)
  | decoratedDef (decoratorRefs : List String) (name : String)
  | callIfMain (fn : String)

/-- Execution of one top-level statement in an environment of bound names.
Evaluating a decorator whose base name is unbound raises `NameError` (the
error carries the offending name); calling an unbound name likewise. -/
def execStmt (env : List String) : PyStmt → Except String (List String)
  | .importNames ns => .ok (ns ++ env)
  | .defFun n => .ok (n :: env)
  | .decoratedDef ds n =>
    match ds.find? (fun d => !(env.contains d)) with
    | some d => .error d
    | none => .ok (n :: env)
  | .callIfMain f => if env.contains f then .ok env else .error f

/-- Sequential execution of a module body from an environment, returning the
outcome together with the list of function calls actually executed.  An
unhandled error stops execution at once, so nothing after it runs. -/
def runModule (env : List String) : List PyStmt → Except String (List String) × List String
  | [] => (.ok env, [])
  | s :: rest =>
    match execStmt env s with
    | .error e => (.error e, [])
    | .ok env2 =>
      let tail := runModule env2 rest
      match s with
      | .callIfMain f => (tail.1, f :: tail.2)
      | _ => tail

/-- Top-level statements of `cropfish/cropfish.py`, in source order:
`import cv2`, `import numpy as np`, `from typing import Tuple, Union`, the
three plain function definitions, the `@click.command(...)`
`@click.argument(...)` decorated definition of `cropfish_cli` (both
decorators reference the base name `click`, which no import binds), and the
`if __name__ == "__main__": cropfish_cli()` call. -/
def cropfishModule : List PyStmt :=
  [ .importNames ["cv2"],
    .importNames ["np"],
    .importNames ["Tuple", "Union"],
    .defFun ("scale_corners"),
    .defFun ("find_corners"),
    .defFun ("crop_image"),
    .decoratedDef ["click", "click"] ("cropfish_cli"),
    .callIfMain ("cropfish_cli") ]

theorem length_pySlice {α : Type} (l : List α) (a b : ℤ) (ha : 0 ≤ a) (hb : 0 ≤ b)
    (hbn : b ≤ (l.length : ℤ)) :
    (pySlice l a b).length = (b - a).toNat := by
  unfold pySlice sliceIdx
  rw [if_neg (by omega), if_neg (by omega)]
  simp only [List.length_take, List.length_drop]
  omega

theorem mem_of_mem_pySlice {α : Type} {l : List α} {a b : ℤ} {x : α}
    (hx : x ∈ pySlice l a b) : x ∈ l := by
  unfold pySlice at hx
  exact List.drop_subset _ _ (List.take_subset _ _ hx)

theorem pySlice_eq_nil {α : Type} (l : List α) (a b : ℤ)
    (h : sliceIdx l.length b ≤ sliceIdx l.length a) : pySlice l a b = [] := by
  unfold pySlice
  rw [Nat.sub_eq_zero_of_le h, List.take_zero]

theorem pySlice_eq_clampSlice {α : Type} (l : List α) (a b : ℤ) (ha : 0 ≤ a) (hb : 0 ≤ b) :
    pySlice l a b = clampSlice l a b := by
  unfold pySlice clampSlice sliceIdx clampIdx
  simp only [if_neg (not_lt.mpr ha), if_neg (not_lt.mpr hb)]

/-- C6: for every coordinate pair, with `center` the midpoint of the pair,
`scale_corners` returns points satisfying `s_i = center + (c_i - center) *
(8/6)` on each axis; equivalently, the squared distance of each returned
point from the center equals the squared distance of the original point from
the center multiplied by exactly `(8/6)^2` — distances scale by exactly
`8/6`. -/
theorem scale_corners_scaling (c1 c2 : ℚ × ℚ) :
    (scale_corners c1 c2).1 =
      ((c1.1 + c2.1) / 2 + (c1.1 - (c1.1 + c2.1) / 2) * (8 / 6),
       (c1.2 + c2.2) / 2 + (c1.2 - (c1.2 + c2.2) / 2) * (8 / 6)) ∧
    (scale_corners c1 c2).2 =
      ((c1.1 + c2.1) / 2 + (c2.1 - (c1.1 + c2.1) / 2) * (8 / 6),
       (c1.2 + c2.2) / 2 + (c2.2 - (c1.2 + c2.2) / 2) * (8 / 6)) ∧
    distSq (scale_corners c1 c2).1 ((c1.1 + c2.1) / 2, (c1.2 + c2.2) / 2) =
      (8 / 6) ^ 2 * distSq c1 ((c1.1 + c2.1) / 2, (c1.2 + c2.2) / 2) ∧
    distSq (scale_corners c1 c2).2 ((c1.1 + c2.1) / 2, (c1.2 + c2.2) / 2) =
      (8 / 6) ^ 2 * distSq c2 ((c1.1 + c2.1) / 2, (c1.2 + c2.2) / 2) := by
  refine ⟨rfl, rfl, ?_, ?_⟩ <;> · simp only [scale_corners, distSq]; ring

/-- C7: the midpoint of the pair returned by `scale_corners` equals the
midpoint of the input pair, exactly, on both axes. -/
theorem scale_corners_midpoint (c1 c2 : ℚ × ℚ) :
    ((scale_corners c1 c2).1.1 + (scale_corners c1 c2).2.1) / 2 = (c1.1 + c2.1) / 2 ∧
    ((scale_corners c1 c2).1.2 + (scale_corners c1 c2).2.2) / 2 = (c1.2 + c2.2) / 2 := by
  constructor <;> · simp only [scale_corners]; ring

/-- C8: `crop_image` is symmetric in its two coordinate arguments, for every
image and all coordinate pairs. -/
theorem crop_image_comm {α : Type} (image : List (List α)) (c1 c2 : ℚ × ℚ) :
    crop_image image c1 c2 = crop_image image c2 c1 := by
  simp only [crop_image]
  rw [min_comm c1.1 c2.1, max_comm c1.1 c2.1, min_comm c1.2 c2.2, max_comm c1.2 c2.2]

/-- C9: when the integer-truncated mins and maxes all lie within the bounds
of a rectangular image, `crop_image` returns exactly `max_y - min_y` rows,
each of exactly `max_x - min_x` pixels (so coincident truncated coordinates
give an empty image, not an error). -/
theorem crop_image_shape {α : Type} (image : List (List α)) (w : ℕ) (c1 c2 : ℚ × ℚ)
    (hw : ∀ r ∈ image, r.length = w)
    (hx0 : 0 ≤ intTrunc (min c1.1 c2.1))
    (hxw : intTrunc (max c1.1 c2.1) ≤ (w : ℤ))
    (hy0 : 0 ≤ intTrunc (min c1.2 c2.2))
    (hyh : intTrunc (max c1.2 c2.2) ≤ (image.length : ℤ)) :
    (crop_image image c1 c2).length
      = (intTrunc (max c1.2 c2.2) - intTrunc (min c1.2 c2.2)).toNat ∧
    ∀ row ∈ crop_image image c1 c2,
      row.length = (intTrunc (max c1.1 c2.1) - intTrunc (min c1.1 c2.1)).toNat := by
  have hyy : intTrunc (min c1.2 c2.2) ≤ intTrunc (max c1.2 c2.2) := intTrunc_mono min_le_max
  have hxx : intTrunc (min c1.1 c2.1) ≤ intTrunc (max c1.1 c2.1) := intTrunc_mono min_le_max
  constructor
  · simp only [crop_image, List.length_map]
    exact length_pySlice image _ _ hy0 (hy0.trans hyy) hyh
  · intro row hrow
    simp only [crop_image, List.mem_map] at hrow
    obtain ⟨r, hr, rfl⟩ := hrow
    have hrl : r.length = w := hw r (mem_of_mem_pySlice hr)
    exact length_pySlice r _ _ hx0 (hx0.trans hxx) (by rw [hrl]; exact hxw)

/-- C9 witness: a concrete in-bounds crop has the stated number of rows. -/
theorem crop_image_shape_witness :
    (crop_image [[1, 2], [3, 4]] ((0 : ℚ), 0) (2, 2)).length = 2 := by
  have h := (crop_image_shape [[1, 2], [3, 4]] 2 ((0 : ℚ), 0) (2, 2) (by decide)
    (by decide) (by decide) (by decide) (by decide)).1
  rw [h]
  decide

/-- C1 counterexample: a negative truncated bound is not truncated to the
image edge.  On the 2x2 image with corner coordinates `(-1, 0)` and
`(1, 2)`, the x-slice `[-1:1]` starts one pixel from the right edge and is
empty, while the edge-truncating reading of the claim selects column 0. -/
theorem crop_image_clamp_claim_false :
    crop_image [[1, 2], [3, 4]] ((-1 : ℚ), 0) (1, 2) ≠
      crop_image_claimed [[1, 2], [3, 4]] ((-1 : ℚ), 0) (1, 2) := by
  with_unfolding_all decide

/-- C1 amended: `crop_image` returns the half-open sub-array
`image[min_y:max_y, min_x:max_x]` with integer-truncated min and max bounds,
and — whenever the truncated lower bounds are nonnegative — a bound lying
beyond the image extent is silently truncated to the image edge, exactly as
the claim states (a negative truncated bound is instead interpreted as an
offset from the far end of the axis; see the C10 theorem). -/
theorem crop_image_clamps_nonneg_bounds {α : Type} (image : List (List α)) (c1 c2 : ℚ × ℚ)
    (hx : 0 ≤ intTrunc (min c1.1 c2.1)) (hy : 0 ≤ intTrunc (min c1.2 c2.2)) :
    crop_image image c1 c2 = crop_image_claimed image c1 c2 := by
  have hx2 : 0 ≤ intTrunc (max c1.1 c2.1) := hx.trans (intTrunc_mono min_le_max)
  have hy2 : 0 ≤ intTrunc (max c1.2 c2.2) := hy.trans (intTrunc_mono min_le_max)
  simp only [crop_image, crop_image_claimed]
  rw [pySlice_eq_clampSlice image _ _ hy hy2]
  have hcols : (fun (row : List α) => pySlice row (intTrunc (min c1.1 c2.1))
      (intTrunc (max c1.1 c2.1))) = (fun row => clampSlice row (intTrunc (min c1.1 c2.1))
      (intTrunc (max c1.1 c2.1))) :=
    funext (fun row => pySlice_eq_clampSlice row _ _ hx hx2)
  rw [hcols]

/-- C1 witness: with nonnegative truncated bounds the two definitions agree
on a concrete input. -/
theorem crop_image_clamps_nonneg_bounds_witness :
    crop_image [[1, 2], [3, 4]] ((0 : ℚ), 0) (1, 2) =
      crop_image_claimed [[1, 2], [3, 4]] ((0 : ℚ), 0) (1, 2) :=
  crop_image_clamps_nonneg_bounds [[1, 2], [3, 4]] ((0 : ℚ), 0) (1, 2)
    (by decide) (by decide)

/-- C10: when the truncated minimum x-bound is negative, `crop_image` passes
it to the slice, and slicing resolves it as an offset from the far end of
the axis — the row width plus the negative value, floored at zero — rather
than as position 0; consequently, whenever the truncated maximum x-bound is
nonnegative and at most `width + min_x`, every row of the crop is empty
instead of holding the columns from 0 to `max_x`. -/
theorem crop_image_negative_bound_far_end {α : Type} (image : List (List α)) (w : ℕ)
    (hw : ∀ r ∈ image, r.length = w) (c1 c2 : ℚ × ℚ)
    (hneg : intTrunc (min c1.1 c2.1) < 0) :
    (∀ r ∈ image, sliceIdx r.length (intTrunc (min c1.1 c2.1))
        = ((w : ℤ) + intTrunc (min c1.1 c2.1)).toNat) ∧
    (0 ≤ intTrunc (max c1.1 c2.1) →
      intTrunc (max c1.1 c2.1) ≤ (w : ℤ) + intTrunc (min c1.1 c2.1) →
      (crop_image image c1 c2).all List.isEmpty = true) := by
  constructor
  · intro r hr
    rw [hw r hr]
    unfold sliceIdx
    rw [if_pos hneg]
  · intro h0 hle
    simp only [List.all_eq_true, crop_image, List.mem_map]
    rintro row ⟨r, hr, rfl⟩
    have hrl : r.length = w := hw r (mem_of_mem_pySlice hr)
    have hempty : pySlice r (intTrunc (min c1.1 c2.1)) (intTrunc (max c1.1 c2.1)) = [] := by
      apply pySlice_eq_nil
      unfold sliceIdx
      rw [if_pos hneg, if_neg (not_lt.mpr h0), hrl]
      have h1 : (intTrunc (max c1.1 c2.1)).toNat ≤ ((w : ℤ) + intTrunc (min c1.1 c2.1)).toNat :=
        Int.toNat_le_toNat hle
      omega
    rw [hempty]
    rfl

/-- C10 witness: on a 2x4 image with truncated x-bounds `[-1, 2]`
(`2 ≤ 4 + (-1)`), every row of the crop is empty. -/
theorem crop_image_negative_bound_far_end_witness :
    (crop_image [[1, 2, 3, 4], [5, 6, 7, 8]] ((-1 : ℚ), 0) (2, 2)).all List.isEmpty = true :=
  (crop_image_negative_bound_far_end [[1, 2, 3, 4], [5, 6, 7, 8]] 4 (by decide)
    ((-1 : ℚ), 0) (2, 2) (by decide)).2 (by decide) (by decide)

/-- C3: `find_corners` tries the thresholds 160 then 192 in that fixed
order, binarizing the grayscale of the resized image by mapping pixels
strictly below the threshold to white (255) and the rest to black (0) and
running the 7x7 chessboard detection on the binary image; on the first
successful detection it rescales every corner by `1 / resize_factor` and
returns the first and last corner in detector order, and after a success at
160 the threshold 192 is never attempted (the tried-threshold trace is
exactly `[160]`). -/
theorem find_corners_threshold_order {α : Type} (cv : CV α) (image : List (List α))
    (resize_factor : ℚ) :
    (∀ (corners : List (ℚ × ℚ)) (h : corners ≠ []),
      cv.findChessboardCorners (7, 7) (binarize (grayOf cv image resize_factor) 160)
          = some corners →
      find_corners cv image resize_factor =
        (some ((corners.head h).1 * (1 / resize_factor),
               (corners.head h).2 * (1 / resize_factor)),
         some ((corners.getLast h).1 * (1 / resize_factor),
               (corners.getLast h).2 * (1 / resize_factor))) ∧
      triedThresholds cv image resize_factor = [160]) ∧
    (∀ (corners : List (ℚ × ℚ)) (h : corners ≠ []),
      cv.findChessboardCorners (7, 7) (binarize (grayOf cv image resize_factor) 160) = none →
      cv.findChessboardCorners (7, 7) (binarize (grayOf cv image resize_factor) 192)
          = some corners →
      find_corners cv image resize_factor =
        (some ((corners.head h).1 * (1 / resize_factor),
               (corners.head h).2 * (1 / resize_factor)),
         some ((corners.getLast h).1 * (1 / resize_factor),
               (corners.getLast h).2 * (1 / resize_factor))) ∧
      triedThresholds cv image resize_factor = [160, 192]) ∧
    binarize (grayOf cv image resize_factor) 160 =
      (grayOf cv image resize_factor).map
        (fun row => row.map (fun p => if p < 160 then 255 else 0)) := by
  refine ⟨?_, ?_, rfl⟩
  · intro corners h hdet
    constructor
    · simp only [find_corners, tryThresholds, hdet, List.head?_map, List.getLast?_map,
        List.head?_eq_head h, List.getLast?_eq_getLast corners h, Option.map_some']
    · simp only [triedThresholds, tryThresholds, hdet]
  · intro corners h h160 h192
    constructor
    · simp only [find_corners, tryThresholds, h160, h192, List.head?_map, List.getLast?_map,
        List.head?_eq_head h, List.getLast?_eq_getLast corners h, Option.map_some']
    · simp only [triedThresholds, tryThresholds, h160, h192]

/-- C5: if the detection fails at both thresholds, `find_corners` returns
both values absent — and it is a total function, so no error is raised; the
tried-threshold trace `[160, 192]` records that both attempts ran. -/
theorem find_corners_not_found {α : Type} (cv : CV α) (image : List (List α))
    (resize_factor : ℚ)
    (h160 : cv.findChessboardCorners (7, 7) (binarize (grayOf cv image resize_factor) 160)
        = none)
    (h192 : cv.findChessboardCorners (7, 7) (binarize (grayOf cv image resize_factor) 192)
        = none) :
    find_corners cv image resize_factor = (none, none) ∧
    triedThresholds cv image resize_factor = [160, 192] := by
  constructor
  · simp only [find_corners, tryThresholds, h160, h192]
  · simp only [triedThresholds, tryThresholds, h160, h192]

/-- C4: on a loaded image, with the fixed resize factor `0.5`, the
orchestrator body writes exactly one file, named `output.png`, whose content
is `crop_image` of the full-resolution image at the `scale_corners`-scaled
pair, whenever `find_corners` returns a present corner pair; and it writes
no file at all when both corners are absent. -/
theorem cropfish_cli_output {α : Type} (cv : CV α) (image : List (List α)) :
    (∀ c1 c2, find_corners cv image (1 / 2) = (some c1, some c2) →
      cropfish_cli cv image =
        [("output.png",
          crop_image image (scale_corners c1 c2).1 (scale_corners c1 c2).2)]) ∧
    (find_corners cv image (1 / 2) = (none, none) → cropfish_cli cv image = []) := by
  constructor
  · intro c1 c2 hfc
    simp only [cropfish_cli, hfc]
  · intro hfc
    simp only [cropfish_cli, hfc]

/-- Concrete OpenCV stand-in whose detector always succeeds with the two
corners `(1, 2)` and `(3, 4)`, for witnesses. -/
def cvDetect : CV ℕ where
  resize := fun img _ => img
  cvtColor := fun img => img
  findChessboardCorners := fun _ _ => some [(1, 2), (3, 4)]

/-- Concrete OpenCV stand-in whose detector never succeeds, for witnesses. -/
def cvNoDetect : CV ℕ where
  resize := fun img _ => img
  cvtColor := fun img => img
  findChessboardCorners := fun _ _ => none

/-- C3 witness: with the always-succeeding detector and resize factor `1/2`,
the corners come back doubled and only the threshold 160 is tried. -/
theorem find_corners_threshold_order_witness :
    find_corners cvDetect [[5]] (1 / 2) = (some (2, 4), some (6, 8)) ∧
    triedThresholds cvDetect [[5]] (1 / 2) = [160] := by
  have h := (find_corners_threshold_order cvDetect [[5]] (1 / 2)).1 [(1, 2), (3, 4)]
    (by decide) rfl
  refine ⟨?_, h.2⟩
  rw [h.1]
  with_unfolding_all decide

/-- C5 witness: with the never-succeeding detector both corners are absent
and both thresholds were tried. -/
theorem find_corners_not_found_witness :
    find_corners cvNoDetect [[5]] (1 / 2) = (none, none) ∧
    triedThresholds cvNoDetect [[5]] (1 / 2) = [160, 192] :=
  find_corners_not_found cvNoDetect [[5]] (1 / 2) rfl rfl

/-- C4 witness: on a concrete 3x3 image with the always-succeeding detector
the orchestrator writes exactly `output.png` with the scaled-and-cropped
content. -/
theorem cropfish_cli_output_witness :
    cropfish_cli cvDetect [[1, 2, 3], [4, 5, 6], [7, 8, 9]] =
      [("output.png", crop_image [[1, 2, 3], [4, 5, 6], [7, 8, 9]]
        (scale_corners (2, 4) (6, 8)).1 (scale_corners (2, 4) (6, 8)).2)] :=
  (cropfish_cli_output cvDetect [[1, 2, 3], [4, 5, 6], [7, 8, 9]]).1 (2, 4) (6, 8)
    (by with_unfolding_all decide)

/-- C2: executing the top-level statements of the module raises an unhandled
NameError for the name `click` while evaluating the decorators of
`cropfish_cli` — no import ever binds `click` — so loading stops there and
no call, in particular not the guarded `cropfish_cli()` entry-point call, is
ever executed (the call trace is empty). -/
theorem cropfish_module_load_raises_nameerror :
    runModule [] cropfishModule = (Except.error ("click"), []) := by
  rfl
